import Mathlib

/-!
Verification development for the visualization selection and ranking engine
of the FloatChat frontend (file src/frontend/src/components/VisualizationPanel.jsx).

The JavaScript code is shallowly embedded:
  * a JS value is modelled by `Value` (numbers as rationals, plus the
    distinguished `nan`, `nullV`, `undef`, strings, and Date objects);
  * a record (plain JS object) is modelled as a total function from keys to
    `Value`, where `Value.undef` stands for an absent key;
  * `new Date(x)` parsing is modelled by `jsDateParse`, covering numeric
    inputs and ISO calendar-date strings `YYYY-MM-DD` (the fragment of host
    date parsing the repository feeds it); other strings are unparsable;
  * the stable `Array.prototype.sort` (stable per ES2019) is modelled by
    `List.insertionSort`, which computes the unique stable sorted
    permutation for the total preorder induced by the score comparator.
All definitions are executable.
-/

open scoped List

/-- A JavaScript runtime value as used by the visualization engine. -/
inductive Value where
  | undef : Value
  | nullV : Value
  | num : ℚ → Value
  | nan : Value
  | str : String → Value
  | dateV : Option ℤ → Value
  deriving DecidableEq

/-- JS truthiness: `undefined`, `null`, `0`, `NaN` and the empty string are
falsy; every other value (including any Date object) is truthy. -/
def truthy : Value → Bool
  | Value.undef => false
  | Value.nullV => false
  | Value.num q => decide (q ≠ 0)
  | Value.nan => false
  | Value.str s => decide (s ≠ "")
  | Value.dateV _ => true

/-- The nullish-coalescing operator `a ?? b`. -/
def nvl (a b : Value) : Value :=
  match a with
  | Value.undef => b
  | Value.nullV => b
  | _ => a

/-- The logical-or `a || b` used by the code only as a defaulting operator. -/
def jsOr (a b : Value) : Value := if truthy a then a else b

/-- A record (flat key-value JS object); `Value.undef` means the key is absent. -/
def Record : Type := String → Value

/-- Property assignment `out[k] = v`. -/
def setField (r : Record) (k : String) (v : Value) : Record :=
  fun k2 => if k2 = k then v else r k2

/-- Build a record from an association list (used for concrete test inputs). -/
def recOf (l : List (String × Value)) : Record :=
  fun k => match l.find? (fun p => p.1 = k) with
    | some p => p.2
    | none => Value.undef

/-- Temperature alias step of `normalizedData`: if `out.TEMP === undefined`
then `out.TEMP = out.temperature_c ?? out.temp ?? out.temperature ?? null`. -/
def normTemp (r : Record) : Record :=
  if r "TEMP" = Value.undef then
    setField r "TEMP"
      (nvl (r "temperature_c") (nvl (r "temp") (nvl (r "temperature") Value.nullV)))
  else r

/-- Salinity alias step: `out.PSAL = out.salinity_psu ?? out.psal ?? out.salinity ?? null`. -/
def normPsal (r : Record) : Record :=
  if r "PSAL" = Value.undef then
    setField r "PSAL"
      (nvl (r "salinity_psu") (nvl (r "psal") (nvl (r "salinity") Value.nullV)))
  else r

/-- Pressure alias step: `out.PRES = out.pressure_dbar ?? out.pres ?? out.pressure ?? null`. -/
def normPres (r : Record) : Record :=
  if r "PRES" = Value.undef then
    setField r "PRES"
      (nvl (r "pressure_dbar") (nvl (r "pres") (nvl (r "pressure") Value.nullV)))
  else r

/-- Time alias step: `out.TIME = out.juld ?? out.time ?? null`. -/
def normTime (r : Record) : Record :=
  if r "TIME" = Value.undef then
    setField r "TIME" (nvl (r "juld") (nvl (r "time") Value.nullV))
  else r

/-- One record of `normalizedData`: the four alias steps applied in source order. -/
def normalizeRec (r : Record) : Record :=
  normTime (normPres (normPsal (normTemp r)))

/-- The `normalizedData` mapping over the whole dataset. -/
def normalizeList (data : List Record) : List Record :=
  data.map normalizeRec

/-- The four canonical field names. -/
def canonKeys : List String := ["TEMP", "PSAL", "PRES", "TIME"]

/-- All four canonical fields are defined (possibly null) on the record. -/
def canonDefined (r : Record) : Prop :=
  r "TEMP" ≠ Value.undef ∧ r "PSAL" ≠ Value.undef ∧
    r "PRES" ≠ Value.undef ∧ r "TIME" ≠ Value.undef

instance (r : Record) : Decidable (canonDefined r) := by
  unfold canonDefined
  infer_instance

/-- Substring containment, the model of testing a regex that is a literal
alternative, on lowercased character lists. -/
def containsSub (needle : List Char) : List Char → Bool
  | [] => needle.isEmpty
  | c :: t => needle.isPrefixOf (c :: t) || containsSub needle t

/-- Substring containment on strings. -/
def containsStr (hay needle : String) : Bool := containsSub needle.data hay.data

/-- The ASCII whitespace characters matched by the regex class in the
intents this engine sees. -/
def isWs (c : Char) : Bool := c = ' ' || c = '\t' || c = '\n' || c = '\r'

/-- Drop a maximal run of whitespace. -/
def dropWs : List Char → List Char
  | [] => []
  | c :: t => if isWs c then dropWs t else c :: t

/-- Match the pattern `a\s*b` at the head of `cs` (both literals start with a
non-whitespace character, so greedy whitespace skipping is exact). -/
def matchWsAt (a b : List Char) (cs : List Char) : Bool :=
  a.isPrefixOf cs && b.isPrefixOf (dropWs (cs.drop a.length))

/-- Test the regex `a\s*b` anywhere in the text. -/
def containsWsPat (a b : List Char) : List Char → Bool
  | [] => false
  | cs@(_ :: t) => matchWsAt a b cs || containsWsPat a b t

/-- JS regex word characters. -/
def isWordChar (c : Char) : Bool := c.isAlphanum || c = '_'

/-- Scan for a word-boundary-delimited occurrence of `w`; `prevWord` records
whether the previous character was a word character. -/
def containsWordAux (w : List Char) (prevWord : Bool) : List Char → Bool
  | [] => false
  | cs@(c :: t) =>
      (!prevWord && w.isPrefixOf cs &&
        (match cs.drop w.length with
         | [] => true
         | d :: _ => !isWordChar d)) ||
      containsWordAux w (isWordChar c) t

/-- Test the regex `\bw\b`. -/
def containsWord (w : List Char) (cs : List Char) : Bool :=
  containsWordAux w false cs

/-- After an occurrence of `temp`, look for `pres` reachable through
non-newline characters (the `.` of `temp.*pres` does not cross a newline). -/
def presAfterNoNl : List Char → Bool
  | [] => false
  | cs@(c :: t) => ("pres".data).isPrefixOf cs || (c ≠ '\n' && presAfterNoNl t)

/-- Test the regex `temp.*pres`. -/
def tempThenPres : List Char → Bool
  | [] => false
  | cs@(_ :: t) => (("temp".data).isPrefixOf cs && presAfterNoNl (cs.drop 4)) || tempThenPres t

/-- Regex `(temp.*pres|profile|vs\s*pressure)` on the lowercased text. -/
def patProfile (q : List Char) : Bool :=
  tempThenPres q || containsSub ("profile".data) q ||
    containsWsPat ("vs".data) ("pressure".data) q

/-- Regex `(surface|0-10\s*dbar|shallow)` on the lowercased text. -/
def patSurface (q : List Char) : Bool :=
  containsSub ("surface".data) q || containsWsPat ("0-10".data) ("dbar".data) q ||
    containsSub ("shallow".data) q

/-- Regex `(trend|time series|over time|monthly|daily)` on the lowercased text. -/
def patTime (q : List Char) : Bool :=
  containsSub ("trend".data) q || containsSub ("time series".data) q ||
    containsSub ("over time".data) q || containsSub ("monthly".data) q ||
      containsSub ("daily".data) q

/-- Regex `(salinity|psal)` on the lowercased text. -/
def patSalinity (q : List Char) : Bool :=
  containsSub ("salinity".data) q || containsSub ("psal".data) q

/-- Regex `(temperature|temp)` on the lowercased text. -/
def patTemperature (q : List Char) : Bool :=
  containsSub ("temperature".data) q || containsSub ("temp".data) q

/-- Regex `(histogram|\bhist\b|bar\s*chart)` on the lowercased text. -/
def patHistogram (q : List Char) : Bool :=
  containsSub ("histogram".data) q || containsWord ("hist".data) q ||
    containsWsPat ("bar".data) ("chart".data) q

/-- Lowercasing `String(x).toLowerCase()`, written over the character list
so that it evaluates inside the kernel. -/
def jsToLower (s : String) : String := String.mk (s.data.map Char.toLower)

/-- Intent flag `wantsProfile` derived from the raw free text. -/
def wantsProfile (intent : String) : Bool := patProfile (jsToLower intent).data

/-- Intent flag `wantsSurface`. -/
def wantsSurface (intent : String) : Bool := patSurface (jsToLower intent).data

/-- Intent flag `wantsTime`. -/
def wantsTime (intent : String) : Bool := patTime (jsToLower intent).data

/-- Intent flag `wantsSalinity`. -/
def wantsSalinity (intent : String) : Bool := patSalinity (jsToLower intent).data

/-- Intent flag `wantsTemperature`. -/
def wantsTemperature (intent : String) : Bool := patTemperature (jsToLower intent).data

/-- Intent flag `wantsHistogram`. -/
def wantsHistogram (intent : String) : Bool := patHistogram (jsToLower intent).data

/-- The scorer re-tests only `(temp.*pres|profile)`, a strict sub-pattern of
the `wantsProfile` flag pattern. -/
def patProfileScore (q : List Char) : Bool :=
  tempThenPres q || containsSub ("profile".data) q

/-- The scorer re-tests only `(surface|0-10\s*dbar)`, a strict sub-pattern of
the `wantsSurface` flag pattern. -/
def patSurfaceScore (q : List Char) : Bool :=
  containsSub ("surface".data) q || containsWsPat ("0-10".data) ("dbar".data) q

/-- Decimal digit run to a natural number; fails on a non-digit. -/
def digitsToNat (acc : ℕ) : List Char → Option ℕ
  | [] => some acc
  | c :: t => if c.isDigit then digitsToNat (acc * 10 + (c.toNat - 48)) t else none

/-- ToNumber on a string, modelled for the shapes this engine meets: the
empty or all-whitespace string coerces to 0, an optionally signed decimal
integer to its value; anything else (fractions, exponents, words) to NaN. -/
def parseNumStr (cs : List Char) : Option ℚ :=
  let t := ((cs.dropWhile isWs).reverse.dropWhile isWs).reverse
  match t with
  | [] => some 0
  | '-' :: ds =>
      match ds with
      | [] => none
      | _ :: _ => (digitsToNat 0 ds).map (fun n => -(n : ℚ))
  | '+' :: ds =>
      match ds with
      | [] => none
      | _ :: _ => (digitsToNat 0 ds).map (fun n => (n : ℚ))
  | ds => (digitsToNat 0 ds).map (fun n => (n : ℚ))

/-- Numeric coercion `Number(x)`; `none` stands for NaN. A Date coerces to
its time value. -/
def jsToNumber : Value → Option ℚ
  | Value.num q => some q
  | Value.nullV => some 0
  | Value.undef => none
  | Value.nan => none
  | Value.dateV t => t.map (fun n => (n : ℚ))
  | Value.str s => parseNumStr s.data

/-- The JS expression `Number(x)` as a value. -/
def jsNumberVal (v : Value) : Value :=
  match jsToNumber v with
  | some q => Value.num q
  | none => Value.nan

/-- The JS comparison `v <= bound` against a number literal: coerce, and a
NaN comparison is false. -/
def jsLeNum (v : Value) (bound : ℚ) : Bool :=
  match jsToNumber v with
  | some x => decide (x ≤ bound)
  | none => false

/-- Days since 1970-01-01 of a proleptic Gregorian date (Howard Hinnant
civil-from-days companion, used by UTC time arithmetic). -/
def daysFromCivil (y m d : ℤ) : ℤ :=
  let y2 := y - (if m ≤ 2 then 1 else 0)
  let era := Int.fdiv y2 400
  let yoe := y2 - era * 400
  let mp := if 2 < m then m - 3 else m + 9
  let doy := Int.fdiv (153 * mp + 2) 5 + d - 1
  let doe := yoe * 365 + Int.fdiv yoe 4 - Int.fdiv yoe 100 + doy
  era * 146097 + doe - 719468

/-- Proleptic Gregorian (year, month, day) of a days-since-epoch count. -/
def civilFromDays (z0 : ℤ) : ℤ × ℤ × ℤ :=
  let z := z0 + 719468
  let era := Int.fdiv z 146097
  let doe := z - era * 146097
  let yoe := Int.fdiv (doe - Int.fdiv doe 1460 + Int.fdiv doe 36524 - Int.fdiv doe 146096) 365
  let y := yoe + era * 400
  let doy := doe - (365 * yoe + Int.fdiv yoe 4 - Int.fdiv yoe 100)
  let mp := Int.fdiv (5 * doy + 2) 153
  let d := doy - Int.fdiv (153 * mp + 2) 5 + 1
  let m := if mp < 10 then mp + 3 else mp - 9
  (y + (if m ≤ 2 then 1 else 0), m, d)

/-- Gregorian leap year. -/
def isLeapYear (y : ℤ) : Bool :=
  (Int.emod y 4 = 0 && Int.emod y 100 ≠ 0) || Int.emod y 400 = 0

/-- Number of days of a month, for validity of parsed calendar dates. -/
def daysInMonth (y m : ℤ) : ℤ :=
  if m = 2 then (if isLeapYear y then 29 else 28)
  else if m = 4 ∨ m = 6 ∨ m = 9 ∨ m = 11 then 30
  else 31

/-- Digit character to an integer. -/
def charDigit (c : Char) : ℤ := ((c.toNat - 48 : ℕ) : ℤ)

/-- Parse an ISO calendar-date string `YYYY-MM-DD` (the date-string fragment
of ECMAScript Date parsing exercised by this repository); out-of-range
components give an invalid date. -/
def parseIsoDate (cs : List Char) : Option (ℤ × ℤ × ℤ) :=
  match cs with
  | [y1, y2, y3, y4, s1, m1, m2, s2, d1, d2] =>
      if y1.isDigit && y2.isDigit && y3.isDigit && y4.isDigit && s1 = '-' &&
          m1.isDigit && m2.isDigit && s2 = '-' && d1.isDigit && d2.isDigit then
        let y := 1000 * charDigit y1 + 100 * charDigit y2 + 10 * charDigit y3 + charDigit y4
        let m := 10 * charDigit m1 + charDigit m2
        let d := 10 * charDigit d1 + charDigit d2
        if 1 ≤ m ∧ m ≤ 12 ∧ 1 ≤ d ∧ d ≤ daysInMonth y m then some (y, m, d) else none
      else none
  | _ => none

/-- Truncation toward zero of a rational, as ECMAScript TimeClip does. -/
def ratTrunc (q : ℚ) : ℤ := q.num / (q.den : ℤ)

/-- TimeClip: a finite time value within 8.64e15 ms of the epoch, truncated. -/
def timeClip (q : ℚ) : Option ℤ :=
  if |q| ≤ (8640000000000000 : ℚ) then some (ratTrunc q) else none

/-- The time value of `new Date(x)`: `none` is an Invalid Date. Numbers are
clipped epoch milliseconds; `null` coerces to 0; strings are parsed as ISO
calendar dates at UTC midnight; `undefined` and NaN give an invalid date. -/
def jsDateParse : Value → Option ℤ
  | Value.num q => timeClip q
  | Value.nullV => some 0
  | Value.str s => (parseIsoDate s.data).map (fun c => daysFromCivil c.1 c.2.1 c.2.2 * 86400000)
  | Value.dateV t => t
  | _ => none

/-- The Date object `new Date(x)` as a value. -/
def jsNewDate (v : Value) : Value := Value.dateV (jsDateParse v)

/-- Two-digit zero padding of `String(n).padStart(2, ...)` for month numbers. -/
def pad2 (n : ℤ) : String := if n < 10 then "0" ++ toString n else toString n

/-- The UTC year-month key of a time value, as built from
`getUTCFullYear` and `getUTCMonth` in the monthly box-plot block. -/
def msMonthKey (t : ℤ) : String :=
  let c := civilFromDays (Int.fdiv t 86400000)
  toString c.1 ++ "-" ++ pad2 c.2.1

/-- One Plotly trace of a chart spec. Purely presentational attributes
(colors, marker styling, contours, mode) carry no data semantics and are
not modelled; `z` is empty except for the heatmap trace. -/
structure Trace where
  ttype : Option String
  name : Option String
  x : List Value
  y : List Value
  z : List Value
  deriving DecidableEq

/-- The layout of a chart spec; the engine logic reads only the title, and
the height is the one other number the spec carries. Axis titles are
presentation detail. -/
structure Layout where
  title : String
  height : ℕ
  deriving DecidableEq

/-- A chart specification as pushed into `visualizations`. -/
structure Viz where
  vtype : String
  dat : List Trace
  layout : Layout
  deriving DecidableEq

/-- Strict inequality `v !== null`. -/
def vNeNull (v : Value) : Bool := decide (v ≠ Value.nullV)

/-- Strict inequality `v !== undefined`. -/
def vDef (v : Value) : Bool := decide (v ≠ Value.undef)

/-- Loose inequality `v != null`, false exactly on `null` and `undefined`. -/
def vNeNullLoose (v : Value) : Bool := decide (v ≠ Value.nullV ∧ v ≠ Value.undef)

/-- Availability predicate `hasTemp`: some record defines both TEMP and PRES. -/
def hasTempB (nd : List Record) : Bool :=
  nd.any (fun d => vDef (d "TEMP") && vDef (d "PRES"))

/-- Availability predicate `hasSal`. -/
def hasSalB (nd : List Record) : Bool :=
  nd.any (fun d => vDef (d "PSAL") && vDef (d "PRES"))

/-- Availability predicate `hasTime`. -/
def hasTimeB (nd : List Record) : Bool :=
  nd.any (fun d => vDef (d "TIME"))

/-- Records with non-null TEMP and PRES. -/
def tempData (nd : List Record) : List Record :=
  nd.filter (fun d => vNeNull (d "TEMP") && vNeNull (d "PRES"))

/-- Records with non-null PSAL and PRES. -/
def salData (nd : List Record) : List Record :=
  nd.filter (fun d => vNeNull (d "PSAL") && vNeNull (d "PRES"))

/-- Records with non-null TIME. -/
def timeData (nd : List Record) : List Record :=
  nd.filter (fun d => vNeNull (d "TIME"))

/-- Near-surface records `(d.PRES || 0) <= 10` with non-null TEMP. -/
def surfaceTempData (nd : List Record) : List Record :=
  nd.filter (fun d => jsLeNum (jsOr (d "PRES") (Value.num 0)) 10 && vNeNull (d "TEMP"))

/-- Near-surface records with non-null PSAL. -/
def surfaceSalData (nd : List Record) : List Record :=
  nd.filter (fun d => jsLeNum (jsOr (d "PRES") (Value.num 0)) 10 && vNeNull (d "PSAL"))

/-- Records with non-null TEMP. -/
def allTempData (nd : List Record) : List Record :=
  nd.filter (fun d => vNeNull (d "TEMP"))

/-- Records with non-null PSAL. -/
def allSalData (nd : List Record) : List Record :=
  nd.filter (fun d => vNeNull (d "PSAL"))

/-- The T-S diagram subset: non-null TEMP and PSAL. -/
def tsData (nd : List Record) : List Record :=
  nd.filter (fun d => vNeNull (d "TEMP") && vNeNull (d "PSAL"))

/-- The heatmap subset: non-null TIME, PRES and TEMP, capped at 5000 records. -/
def heatData (nd : List Record) : List Record :=
  (nd.filter (fun d => vNeNull (d "TIME") && vNeNull (d "PRES") && vNeNull (d "TEMP"))).take 5000

/-- The researcher persona rule block, with the three availability
predicates passed in (they are computed once at the top of the source
function). -/
def researcherVisuals (ht hs hti : Bool) (nd : List Record) : List Viz :=
  (if ht then
    (if 0 < (tempData nd).length then
      [⟨"scatter",
        [⟨some "scatter", some "Temperature vs Pressure",
          (tempData nd).map (fun d => d "TEMP"), (tempData nd).map (fun d => d "PRES"), []⟩],
        ⟨"Temperature vs Pressure Profile", 400⟩⟩]
     else [])
   else []) ++
  (if hs then
    (if 0 < (salData nd).length then
      [⟨"scatter",
        [⟨some "scatter", some "Salinity vs Pressure",
          (salData nd).map (fun d => d "PSAL"), (salData nd).map (fun d => d "PRES"), []⟩],
        ⟨"Salinity vs Pressure Profile", 400⟩⟩]
     else [])
   else []) ++
  (if hti then
    (if 0 < (timeData nd).length then
      [⟨"scatter",
        [⟨some "scatter", some "Temperature Over Time",
          (timeData nd).map (fun d => jsNewDate (d "TIME")),
          (timeData nd).map (fun d => jsOr (d "TEMP") (Value.num 0)), []⟩],
        ⟨"Temperature Over Time", 400⟩⟩]
     else [])
   else [])

/-- The fisherman persona rule block: near-surface histograms. -/
def fishermanVisuals (ht hs : Bool) (nd : List Record) : List Viz :=
  (if ht then
    (if 0 < (surfaceTempData nd).length then
      [⟨"histogram",
        [⟨some "histogram", some "Surface Temperature Distribution",
          (surfaceTempData nd).map (fun d => d "TEMP"), [], []⟩],
        ⟨"Surface Temperature Distribution (0-10 dbar)", 350⟩⟩]
     else [])
   else []) ++
  (if hs then
    (if 0 < (surfaceSalData nd).length then
      [⟨"histogram",
        [⟨some "histogram", some "Surface Salinity Distribution",
          (surfaceSalData nd).map (fun d => d "PSAL"), [], []⟩],
        ⟨"Surface Salinity Distribution (0-10 dbar)", 350⟩⟩]
     else [])
   else [])

/-- The running sum `s + (v || 0)` of the policymaker averages. Adding a
non-numeric operand (a string field value) is modelled as NaN; `none`
stands for NaN. -/
def jsAddOrZero (s : Option ℚ) (v : Value) : Option ℚ :=
  match s, jsOr v (Value.num 0) with
  | some a, Value.num q => some (a + q)
  | _, _ => none

/-- Count of records whose field is neither null nor undefined. -/
def validCount (key : String) (nd : List Record) : ℕ :=
  (nd.filter (fun d => vNeNullLoose (d key))).length

/-- The policymaker mean: summed with `|| 0` defaulting, divided by
`Math.max(1, count of valid values)`. -/
def policymakerAvg (key : String) (nd : List Record) : Option ℚ :=
  (nd.foldl (fun s d => jsAddOrZero s (d key)) (some 0)).map
    (fun s => s / ((max 1 (validCount key nd) : ℕ) : ℚ))

/-- The bar value `Number.isFinite(a) ? a : 0`. -/
def finiteOrZero (a : Option ℚ) : Value :=
  match a with
  | some q => Value.num q
  | none => Value.num 0

/-- The policymaker persona rule block: one summary bar chart, pushed
unconditionally. -/
def policymakerVisuals (nd : List Record) : List Viz :=
  [⟨"bar",
    [⟨some "bar", none,
      [Value.str "Records", Value.str "Avg Temp", Value.str "Avg Salinity"],
      [Value.num ((nd.length : ℕ) : ℚ),
        finiteOrZero (policymakerAvg "TEMP" nd),
        finiteOrZero (policymakerAvg "PSAL" nd)], []⟩],
    ⟨"Summary Indicators", 350⟩⟩]

/-- The traces of the student combined scatter. -/
def studentTraces (ht hs : Bool) (nd : List Record) : List Trace :=
  (if ht then
    (if 0 < (tempData nd).length then
      [⟨some "scatter", some "Temperature",
        (tempData nd).map (fun d => d "TEMP"), (tempData nd).map (fun d => d "PRES"), []⟩]
     else [])
   else []) ++
  (if hs then
    (if 0 < (salData nd).length then
      [⟨some "scatter", some "Salinity",
        (salData nd).map (fun d => d "PSAL"), (salData nd).map (fun d => d "PRES"), []⟩]
     else [])
   else [])

/-- The student persona rule block: the combined scatter when any trace exists. -/
def studentVisuals (ht hs : Bool) (nd : List Record) : List Viz :=
  if 0 < (studentTraces ht hs nd).length then
    [⟨"scatter", studentTraces ht hs nd, ⟨"Profiles Overview", 400⟩⟩]
  else []

/-- The histogram-presence test
`v.type === 'histogram' || (v.data && v.data[0]?.type === 'histogram')`
(a JS array is always truthy, and indexing an empty one gives undefined). -/
def isHistVizB (v : Viz) : Bool :=
  decide (v.vtype = "histogram") ||
    (match v.dat with
     | [] => false
     | t :: _ => decide (t.ttype = some "histogram"))

/-- Source of the intent-requested temperature histogram: the near-surface
subset when it has more than 10 records, else the full non-null subset. -/
def histTempSource (nd : List Record) : List Record :=
  if 10 < (surfaceTempData nd).length then surfaceTempData nd else allTempData nd

/-- Source of the intent-requested salinity histogram. -/
def histSalSource (nd : List Record) : List Record :=
  if 10 < (surfaceSalData nd).length then surfaceSalData nd else allSalData nd

/-- The `histVisuals` charts built when a histogram is requested by intent. -/
def histVisualsList (ht hs : Bool) (nd : List Record) : List Viz :=
  (if ht then
    (if 0 < (histTempSource nd).length then
      [⟨"histogram",
        [⟨some "histogram", some "Temperature",
          (histTempSource nd).map (fun d => d "TEMP"), [], []⟩],
        ⟨if 10 < (surfaceTempData nd).length then
            "Surface Temperature Distribution (0-10 dbar)"
          else "Temperature Distribution", 350⟩⟩]
     else [])
   else []) ++
  (if hs then
    (if 0 < (histSalSource nd).length then
      [⟨"histogram",
        [⟨some "histogram", some "Salinity",
          (histSalSource nd).map (fun d => d "PSAL"), [], []⟩],
        ⟨if 10 < (surfaceSalData nd).length then
            "Surface Salinity Distribution (0-10 dbar)"
          else "Salinity Distribution", 350⟩⟩]
     else [])
   else [])

/-- The histogram intent override: when requested and no histogram is
present yet, the built histograms are prepended one by one with `unshift`,
which reverses their order at the front. -/
def histOverride (wantsHist ht hs : Bool) (nd : List Record) (base : List Viz) : List Viz :=
  if wantsHist then
    (if !(base.any isHistVizB) && 0 < (histVisualsList ht hs nd).length then
      (histVisualsList ht hs nd).reverse ++ base
     else base)
  else base

/-- The T-S diagram visual. -/
def tsVisual (nd : List Record) : Viz :=
  ⟨"scatter",
    [⟨some "scatter", some "T-S Diagram",
      (tsData nd).map (fun d => d "PSAL"), (tsData nd).map (fun d => d "TEMP"), []⟩],
    ⟨"Temperature–Salinity (T–S) Diagram", 400⟩⟩

/-- The advanced T-S diagram block, gated at more than 20 valid records. -/
def tsBlock (ht hs : Bool) (nd : List Record) : List Viz :=
  if ht && hs then (if 20 < (tsData nd).length then [tsVisual nd] else []) else []

/-- The time-depth heatmap visual. -/
def heatVisual (nd : List Record) : Viz :=
  ⟨"heatmap",
    [⟨some "histogram2dcontour", some "Time-Depth TEMP",
      (heatData nd).map (fun d => jsNewDate (d "TIME")),
      (heatData nd).map (fun d => d "PRES"),
      (heatData nd).map (fun d => d "TEMP")⟩],
    ⟨"Time–Depth Heatmap (Temperature)", 420⟩⟩

/-- The advanced heatmap block, gated at more than 20 capped records. -/
def heatBlock (ht hti : Bool) (nd : List Record) : List Viz :=
  if ht && hti then (if 20 < (heatData nd).length then [heatVisual nd] else []) else []

/-- The (month key, `Number(d.TEMP)`) pairs accumulated into `byMonth`:
records whose TIME is truthy, whose TEMP is loosely non-null, and whose
TIME parses to a valid date. -/
def monthPairs (nd : List Record) : List (String × Value) :=
  nd.filterMap (fun d =>
    if truthy (d "TIME") && vNeNullLoose (d "TEMP") then
      match jsDateParse (d "TIME") with
      | some t => some (msMonthKey t, jsNumberVal (d "TEMP"))
      | none => none
    else none)

/-- Keys of a JS object in insertion order: first occurrences. -/
def firstOccurAux (seen : List String) : List String → List String
  | [] => []
  | x :: t => if x ∈ seen then firstOccurAux seen t else x :: firstOccurAux (x :: seen) t

/-- Distinct keys in insertion order, as `Object.keys` enumerates them. -/
def firstOccur (l : List String) : List String := firstOccurAux [] l

/-- Lexicographic comparison of character lists by code point, the order
`Array.prototype.sort()` uses on (ASCII) strings. -/
def charListLe : List Char → List Char → Bool
  | [], _ => true
  | _ :: _, [] => false
  | a :: as, b :: bs =>
      if a.toNat < b.toNat then true
      else if b.toNat < a.toNat then false
      else charListLe as bs

/-- Lexicographic order on strings. -/
def strLeB (a b : String) : Bool := charListLe a.data b.data

/-- Default `Array.prototype.sort()` on strings: ascending lexicographic
comparison of code units, modelled by the stable insertion sort over the
string order. -/
def sortStrs (l : List String) : List String :=
  List.insertionSort (fun a b : String => strLeB a b = true) l

/-- The sorted distinct month labels of the box-plot block. -/
def monthLabels (nd : List Record) : List String :=
  sortStrs (firstOccur ((monthPairs nd).map Prod.fst))

/-- The temperatures accumulated under one month key, in record order. -/
def monthGroup (nd : List Record) (lab : String) : List Value :=
  ((monthPairs nd).filter (fun p => decide (p.1 = lab))).map Prod.snd

/-- The monthly box-plot visual: one box trace per month label. -/
def boxVisual (nd : List Record) : Viz :=
  ⟨"box",
    (monthLabels nd).map (fun lab => ⟨some "box", some lab, [], monthGroup nd lab, []⟩),
    ⟨"Monthly Temperature Distribution", 420⟩⟩

/-- The advanced monthly box-plot block, gated at 2 distinct months. -/
def boxBlock (ht hti : Bool) (nd : List Record) : List Viz :=
  if ht && hti then (if 2 ≤ (monthLabels nd).length then [boxVisual nd] else []) else []

/-- The persona rule blocks in source order; at most one is active. -/
def personaVisuals (prof : String) (ht hs hti : Bool) (nd : List Record) : List Viz :=
  (if prof = "researcher" then researcherVisuals ht hs hti nd else []) ++
  (if prof = "fisherman" then fishermanVisuals ht hs nd else []) ++
  (if prof = "policymaker" then policymakerVisuals nd else []) ++
  (if prof = "student" then studentVisuals ht hs nd else [])

/-- String defaulting `a || b`. -/
def jsOrStr (a b : String) : String := if a = "" then b else a

/-- The body of `createVisualizations`, with the three availability
predicates (computed once at the top of the source function) passed in:
persona blocks, then the histogram intent override prepending, then the
advanced charts.  `prof` and `q` are already lowercased.  The source also
derives the five other intent flags here, but only `wantsHistogram` is
read. -/
def createVisAux (ht hs hti : Bool) (nd : List Record) (prof q : String) : List Viz :=
  histOverride (patHistogram q.data) ht hs nd (personaVisuals prof ht hs hti nd) ++
    tsBlock ht hs nd ++ heatBlock ht hti nd ++ boxBlock ht hti nd

/-- `createVisualizations(records, profession, intent)`: the profession
falls back to `Researcher` only when falsy (the empty string) and is
lowercased; so is the intent text. -/
def createVisualizations (nd : List Record) (profession intent : String) : List Viz :=
  createVisAux (hasTempB nd) (hasSalB nd) (hasTimeB nd) nd
    (jsToLower (jsOrStr profession "Researcher")) (jsToLower (jsOrStr intent ""))

/-- The values of one field that pass the KPI validity filter
`v !== null && v !== undefined && !Number.isNaN(v)` (only the NaN number
is `Number.isNaN`; strings pass). -/
def kpiValidVals (key : String) (nd : List Record) : List Value :=
  (nd.map (fun d => d key)).filter (fun v => vNeNullLoose v && decide (v ≠ Value.nan))

/-- The reduction `(a, b) => a + Number(b)` from 0; a NaN coercion poisons
the sum (`none` stands for NaN). -/
def jsSumNumber (l : List Value) : Option ℚ :=
  l.foldl (fun a b =>
    match a, jsToNumber b with
    | some x, some y => some (x + y)
    | _, _ => none) (some 0)

/-- A KPI average: null (here `Value.nullV`) when no valid value exists,
otherwise the reduced sum divided by the valid count (NaN if a value
coerced to NaN). -/
def kpiAvg (key : String) (nd : List Record) : Value :=
  let vs := kpiValidVals key nd
  if 0 < vs.length then
    (match jsSumNumber vs with
     | some s => Value.num (s / ((vs.length : ℕ) : ℚ))
     | none => Value.nan)
  else Value.nullV

/-- The time value `new Date(v).getTime()`: NaN on an invalid date. -/
def jsGetTime (v : Value) : Value :=
  match jsDateParse v with
  | some t => Value.num ((t : ℤ) : ℚ)
  | none => Value.nan

/-- The `times` list of the KPI block:
`map(d => d.TIME ? new Date(d.TIME).getTime() : null).filter(Boolean)`. -/
def kpiTimesV (nd : List Record) : List Value :=
  (nd.map (fun d => if truthy (d "TIME") then jsGetTime (d "TIME") else Value.nullV)).filter truthy

/-- Numeric reading of an element of the (all-numeric) `times` list. -/
def toQ (v : Value) : ℚ :=
  match v with
  | Value.num q => q
  | _ => 0

/-- The minimum `times.length ? Math.min(...times) : null`. -/
def kpiMinTime (nd : List Record) : Option ℚ :=
  match kpiTimesV nd with
  | [] => none
  | v :: t => some ((t.map toQ).foldl min (toQ v))

/-- The maximum `times.length ? Math.max(...times) : null`. -/
def kpiMaxTime (nd : List Record) : Option ℚ :=
  match kpiTimesV nd with
  | [] => none
  | v :: t => some ((t.map toQ).foldl max (toQ v))

/-- The KPI summary: record count, averages, and the time span ends
(`none` renders as the placeholder). -/
structure Kpis where
  numRecords : ℕ
  avgTemp : Value
  avgSal : Value
  minTime : Option ℚ
  maxTime : Option ℚ
  deriving DecidableEq

/-- The `kpis` memo: null without data, else the aggregates over the raw
count and the normalized records. -/
def computeKpis (data : List Record) : Option Kpis :=
  if 0 < data.length then
    some ⟨data.length, kpiAvg "TEMP" (normalizeList data), kpiAvg "PSAL" (normalizeList data),
      kpiMinTime (normalizeList data), kpiMaxTime (normalizeList data)⟩
  else none

/-- The ranking score of one spec against the lowercased intent text `q`:
the sequential `score += k` accumulation of the source. The first term is
a disjunction in the source (title mentions pressure OR the text matches
`(temp.*pres|profile)`); the remaining terms are conjunctions. -/
def scoreViz (q : String) (v : Viz) : ℕ :=
  let title := jsToLower v.layout.title
  let s1 := if containsStr title "pressure" || patProfileScore q.data then 0 + 3 else 0
  let s2 := if containsStr title "salinity" && patSalinity q.data then s1 + 2 else s1
  let s3 := if containsStr title "temperature" && patTemperature q.data then s2 + 2 else s2
  let s4 := if containsStr title "time" && patTime q.data then s3 + 3 else s3
  if (containsStr title "surface" || containsStr title "distribution") && patSurfaceScore q.data then
    s4 + 2
  else s4

/-- The `priority` array `{idx, score}` built by `map((viz, idx) => ...)`,
with the running index made explicit. -/
def rankEntriesAux (q : String) : List Viz → ℕ → List (ℕ × ℕ)
  | [], _ => []
  | v :: t, i => (i, scoreViz q v) :: rankEntriesAux q t (i + 1)

/-- The `priority` array of the ranking stage. -/
def rankEntries (q : String) (l : List Viz) : List (ℕ × ℕ) := rankEntriesAux q l 0

/-- Dummy spec: index lookups of the ranking stage are always in range. -/
def junkViz : Viz := ⟨"", [], ⟨"", 0⟩⟩

/-- The comparison `(a, b) => b.score - a.score` sorts descending by
score; as a binary relation an entry precedes another when its score is at
least as large. -/
def scoreGeRel (p r : ℕ × ℕ) : Prop := r.2 ≤ p.2

instance : DecidableRel scoreGeRel := fun p r => inferInstanceAs (Decidable (r.2 ≤ p.2))

/-- The sort `priority.sort((a, b) => b.score - a.score)` followed by
`priority.map(p => visualizations[p.idx])`: a stable descending sort on
the score. -/
def rankStage (l : List Viz) (q : String) : List Viz :=
  (List.insertionSort scoreGeRel (rankEntries q l)).map
    (fun p => l.getD p.1 junkViz)

/-- The histogram-only narrowing: keep only histogram specs when requested
and at least one exists. -/
def histFilterStage (l : List Viz) (wantsHist : Bool) : List Viz :=
  if wantsHist then
    (if 0 < (l.filter isHistVizB).length then l.filter isHistVizB else l)
  else l

/-- The whole intent-aware ordering/filtering stage, guarded by a non-empty
spec list and a truthy intent string. -/
def rankViz (l : List Viz) (intent : String) : List Viz :=
  if 0 < l.length ∧ intent ≠ "" then
    rankStage (histFilterStage l (patHistogram (jsToLower intent).data)) (jsToLower intent)
  else l

/-- The spec list after only the narrowing part of the ranking stage (what
the scoring sort then reorders). -/
def histStage (l : List Viz) (intent : String) : List Viz :=
  if 0 < l.length ∧ intent ≠ "" then
    histFilterStage l (patHistogram (jsToLower intent).data)
  else l

/-- Concrete record exercising the frame property. -/
def c9rec : Record := recOf [("temp", Value.num 7), ("other", Value.str "x"), ("PRES", Value.nullV)]

/-- Concrete one-record raw dataset for the C10 witness. -/
def c10rec : Record := recOf [("temp", Value.num 3)]

/-- Concrete spec with an unscored title. -/
def vizA : Viz := ⟨"bar", [], ⟨"A", 1⟩⟩

/-- Second concrete spec with an unscored title. -/
def vizB : Viz := ⟨"bar", [], ⟨"B", 2⟩⟩

/-- Concrete near-surface record for the C3 and C6 witnesses. -/
def c3rec : Record :=
  recOf [("TEMP", Value.num 5), ("PRES", Value.num 1), ("PSAL", Value.nullV), ("TIME", Value.nullV)]

/-- Recognizer of the T-S diagram spec by its (unique) literal title. -/
def isTsViz (v : Viz) : Bool :=
  decide (v.layout.title = "Temperature–Salinity (T–S) Diagram")

/-- Number of T-S diagram specs in a spec list. -/
def tsCount (l : List Viz) : ℕ := (l.filter isTsViz).length

/-- Concrete valid T-S record for the C6 witness. -/
def c6rec : Record :=
  recOf [("TEMP", Value.num 5), ("PSAL", Value.num 35), ("PRES", Value.nullV), ("TIME", Value.nullV)]

/-- Recognizer of box-plot specs by kind. -/
def isBoxViz (v : Viz) : Bool := decide (v.vtype = "box")

/-- The box-plot specs of a spec list. -/
def boxSpecs (l : List Viz) : List Viz := l.filter isBoxViz

/-- Concrete record with TIME = 0 (the epoch, non-null and parseable but
falsy) for the C7 counterexample. -/
def c7e1 : Record :=
  recOf [("TIME", Value.num 0), ("TEMP", Value.num 5), ("PSAL", Value.nullV), ("PRES", Value.nullV)]

/-- Second concrete record, dated January 2023. -/
def c7e2 : Record :=
  recOf [("TIME", Value.str "2023-01-05"), ("TEMP", Value.num 6), ("PSAL", Value.nullV),
    ("PRES", Value.nullV)]

/-- Concrete January record for the C7 witness. -/
def c7w1 : Record :=
  recOf [("TEMP", Value.num 10), ("PSAL", Value.nullV), ("PRES", Value.nullV),
    ("TIME", Value.str "2023-01-05")]

/-- Concrete February record for the C7 witness. -/
def c7w2 : Record :=
  recOf [("TEMP", Value.num 12), ("PSAL", Value.nullV), ("PRES", Value.nullV),
    ("TIME", Value.str "2023-02-11")]

/-- Concrete one-record dataset for the C2 counterexample. -/
def c2rec : Record :=
  recOf [("TEMP", Value.num 1), ("PRES", Value.num 1), ("PSAL", Value.nullV), ("TIME", Value.nullV)]

/-- A box-plot spec whose title names temperature and distribution but not
pressure, for the C1 counterexample. -/
def c1viz : Viz := ⟨"box", [], ⟨"Monthly Temperature Distribution", 420⟩⟩

/-- The score as C1 words it: every term, the pressure one included, is
added only when its title condition AND its intent-flag condition both
hold. Second definition following the claim, for comparison with the
source scorer. -/
def specScoreC1 (intent : String) (v : Viz) : ℕ :=
  let title := jsToLower v.layout.title
  (if containsStr title "pressure" && wantsProfile intent then 3 else 0) +
  (if containsStr title "salinity" && wantsSalinity intent then 2 else 0) +
  (if containsStr title "temperature" && wantsTemperature intent then 2 else 0) +
  (if containsStr title "time" && wantsTime intent then 3 else 0) +
  (if (containsStr title "surface" || containsStr title "distribution") && wantsSurface intent
    then 2 else 0)

/-- One-record dataset whose TIME parses to the valid timestamp 0, for the
C5 counterexample. -/
def c5rec : Record := recOf [("TIME", Value.str "1970-01-01")]

/-- The time values the code actually keeps for the time span: the TIME
value must be truthy (non-null, non-zero, non-empty, not NaN), must parse
to a valid date, and the parsed timestamp must itself be non-zero. -/
def goodTimes (nd : List Record) : List ℚ :=
  nd.filterMap (fun d =>
    if truthy (d "TIME") then
      match jsDateParse (d "TIME") with
      | some t => if ((t : ℤ) : ℚ) ≠ 0 then some (((t : ℤ) : ℚ)) else none
      | none => none
    else none)

lemma setField_self (r : Record) (k : String) (v : Value) : setField r k v k = v := by
  simp [setField]

lemma setField_other (r : Record) (k : String) (v : Value) {k2 : String} (h : k2 ≠ k) :
    setField r k v k2 = r k2 := by
  simp [setField, h]

lemma nvl_ne_undef (a : Value) {b : Value} (hb : b ≠ Value.undef) : nvl a b ≠ Value.undef := by
  cases a <;> simp [nvl] <;> exact hb

lemma normTemp_other (r : Record) (k : String) (h : k ≠ "TEMP") : normTemp r k = r k := by
  unfold normTemp
  split_ifs with h2
  · exact setField_other _ _ _ h
  · rfl

lemma normPsal_other (r : Record) (k : String) (h : k ≠ "PSAL") : normPsal r k = r k := by
  unfold normPsal
  split_ifs with h2
  · exact setField_other _ _ _ h
  · rfl

lemma normPres_other (r : Record) (k : String) (h : k ≠ "PRES") : normPres r k = r k := by
  unfold normPres
  split_ifs with h2
  · exact setField_other _ _ _ h
  · rfl

lemma normTime_other (r : Record) (k : String) (h : k ≠ "TIME") : normTime r k = r k := by
  unfold normTime
  split_ifs with h2
  · exact setField_other _ _ _ h
  · rfl

lemma normTemp_at (r : Record) :
    normTemp r "TEMP" =
      if r "TEMP" = Value.undef then
        nvl (r "temperature_c") (nvl (r "temp") (nvl (r "temperature") Value.nullV))
      else r "TEMP" := by
  unfold normTemp
  split_ifs with h
  · exact setField_self _ _ _
  · rfl

lemma normPsal_at (r : Record) :
    normPsal r "PSAL" =
      if r "PSAL" = Value.undef then
        nvl (r "salinity_psu") (nvl (r "psal") (nvl (r "salinity") Value.nullV))
      else r "PSAL" := by
  unfold normPsal
  split_ifs with h
  · exact setField_self _ _ _
  · rfl

lemma normPres_at (r : Record) :
    normPres r "PRES" =
      if r "PRES" = Value.undef then
        nvl (r "pressure_dbar") (nvl (r "pres") (nvl (r "pressure") Value.nullV))
      else r "PRES" := by
  unfold normPres
  split_ifs with h
  · exact setField_self _ _ _
  · rfl

lemma normTime_at (r : Record) :
    normTime r "TIME" =
      if r "TIME" = Value.undef then nvl (r "juld") (nvl (r "time") Value.nullV)
      else r "TIME" := by
  unfold normTime
  split_ifs with h
  · exact setField_self _ _ _
  · rfl

lemma normalizeRec_TEMP (r : Record) :
    normalizeRec r "TEMP" =
      if r "TEMP" = Value.undef then
        nvl (r "temperature_c") (nvl (r "temp") (nvl (r "temperature") Value.nullV))
      else r "TEMP" := by
  unfold normalizeRec
  rw [normTime_other _ _ (by decide), normPres_other _ _ (by decide),
    normPsal_other _ _ (by decide), normTemp_at]

lemma normalizeRec_PSAL (r : Record) :
    normalizeRec r "PSAL" =
      if r "PSAL" = Value.undef then
        nvl (r "salinity_psu") (nvl (r "psal") (nvl (r "salinity") Value.nullV))
      else r "PSAL" := by
  unfold normalizeRec
  rw [normTime_other _ _ (by decide), normPres_other _ _ (by decide), normPsal_at,
    normTemp_other r "PSAL" (by decide), normTemp_other r "salinity_psu" (by decide),
    normTemp_other r "psal" (by decide), normTemp_other r "salinity" (by decide)]

lemma normalizeRec_PRES (r : Record) :
    normalizeRec r "PRES" =
      if r "PRES" = Value.undef then
        nvl (r "pressure_dbar") (nvl (r "pres") (nvl (r "pressure") Value.nullV))
      else r "PRES" := by
  unfold normalizeRec
  rw [normTime_other _ _ (by decide), normPres_at,
    normPsal_other _ "PRES" (by decide), normPsal_other _ "pressure_dbar" (by decide),
    normPsal_other _ "pres" (by decide), normPsal_other _ "pressure" (by decide),
    normTemp_other r "PRES" (by decide), normTemp_other r "pressure_dbar" (by decide),
    normTemp_other r "pres" (by decide), normTemp_other r "pressure" (by decide)]

lemma normalizeRec_TIME (r : Record) :
    normalizeRec r "TIME" =
      if r "TIME" = Value.undef then nvl (r "juld") (nvl (r "time") Value.nullV)
      else r "TIME" := by
  unfold normalizeRec
  rw [normTime_at,
    normPres_other _ "TIME" (by decide), normPres_other _ "juld" (by decide),
    normPres_other _ "time" (by decide),
    normPsal_other _ "TIME" (by decide), normPsal_other _ "juld" (by decide),
    normPsal_other _ "time" (by decide),
    normTemp_other r "TIME" (by decide), normTemp_other r "juld" (by decide),
    normTemp_other r "time" (by decide)]

lemma normalizeRec_other (r : Record) (k : String) (h1 : k ≠ "TEMP") (h2 : k ≠ "PSAL")
    (h3 : k ≠ "PRES") (h4 : k ≠ "TIME") : normalizeRec r k = r k := by
  unfold normalizeRec
  rw [normTime_other _ _ h4, normPres_other _ _ h3, normPsal_other _ _ h2,
    normTemp_other _ _ h1]

lemma canonDefined_normalizeRec (r : Record) : canonDefined (normalizeRec r) := by
  refine ⟨?_, ?_, ?_, ?_⟩
  · rw [normalizeRec_TEMP]
    split_ifs with h
    · exact nvl_ne_undef _ (nvl_ne_undef _ (nvl_ne_undef _ (by decide)))
    · exact h
  · rw [normalizeRec_PSAL]
    split_ifs with h
    · exact nvl_ne_undef _ (nvl_ne_undef _ (nvl_ne_undef _ (by decide)))
    · exact h
  · rw [normalizeRec_PRES]
    split_ifs with h
    · exact nvl_ne_undef _ (nvl_ne_undef _ (nvl_ne_undef _ (by decide)))
    · exact h
  · rw [normalizeRec_TIME]
    split_ifs with h
    · exact nvl_ne_undef _ (nvl_ne_undef _ (by decide))
    · exact h

lemma normTemp_of_def {r : Record} (h : r "TEMP" ≠ Value.undef) : normTemp r = r := by
  unfold normTemp
  exact if_neg h

lemma normPsal_of_def {r : Record} (h : r "PSAL" ≠ Value.undef) : normPsal r = r := by
  unfold normPsal
  exact if_neg h

lemma normPres_of_def {r : Record} (h : r "PRES" ≠ Value.undef) : normPres r = r := by
  unfold normPres
  exact if_neg h

lemma normTime_of_def {r : Record} (h : r "TIME" ≠ Value.undef) : normTime r = r := by
  unfold normTime
  exact if_neg h

lemma normalizeRec_idem (r : Record) : normalizeRec (normalizeRec r) = normalizeRec r := by
  have hd := canonDefined_normalizeRec r
  show normTime (normPres (normPsal (normTemp (normalizeRec r)))) = normalizeRec r
  rw [normTemp_of_def hd.1, normPsal_of_def hd.2.1, normPres_of_def hd.2.2.1,
    normTime_of_def hd.2.2.2]

/-- C4. Normalization is idempotent: normalizing an already normalized
record sequence changes nothing, because every canonical field is defined
after the first pass and a defined canonical field is never overwritten. -/
theorem c4_normalize_idempotent (X : List Record) :
    normalizeList (normalizeList X) = normalizeList X := by
  induction X with
  | nil => rfl
  | cons x t ih =>
      simp only [normalizeList, List.map_cons] at ih ⊢
      rw [normalizeRec_idem, ih]

/-- C9. Frame property of normalization: every non-canonical field is left
unchanged; an already defined canonical field is preserved verbatim; an
absent canonical field is filled from its alias chain ending in null. -/
theorem c9_normalize_frame (r : Record) :
    (∀ k, k ∉ canonKeys → normalizeRec r k = r k)
  ∧ (∀ c, c ∈ canonKeys → r c ≠ Value.undef → normalizeRec r c = r c)
  ∧ (r "TEMP" = Value.undef →
      normalizeRec r "TEMP" =
        nvl (r "temperature_c") (nvl (r "temp") (nvl (r "temperature") Value.nullV)))
  ∧ (r "PSAL" = Value.undef →
      normalizeRec r "PSAL" =
        nvl (r "salinity_psu") (nvl (r "psal") (nvl (r "salinity") Value.nullV)))
  ∧ (r "PRES" = Value.undef →
      normalizeRec r "PRES" =
        nvl (r "pressure_dbar") (nvl (r "pres") (nvl (r "pressure") Value.nullV)))
  ∧ (r "TIME" = Value.undef →
      normalizeRec r "TIME" = nvl (r "juld") (nvl (r "time") Value.nullV)) := by
  refine ⟨?_, ?_, ?_, ?_, ?_, ?_⟩
  · intro k hk
    simp only [canonKeys, List.mem_cons, List.mem_singleton, not_or] at hk
    exact normalizeRec_other r k hk.1 hk.2.1 hk.2.2.1 (by simpa using hk.2.2.2)
  · intro c hc hdef
    simp only [canonKeys, List.mem_cons, List.not_mem_nil, or_false] at hc
    rcases hc with h | h | h | h <;> subst h
    · rw [normalizeRec_TEMP, if_neg hdef]
    · rw [normalizeRec_PSAL, if_neg hdef]
    · rw [normalizeRec_PRES, if_neg hdef]
    · rw [normalizeRec_TIME, if_neg hdef]
  · intro h
    rw [normalizeRec_TEMP, if_pos h]
  · intro h
    rw [normalizeRec_PSAL, if_pos h]
  · intro h
    rw [normalizeRec_PRES, if_pos h]
  · intro h
    rw [normalizeRec_TIME, if_pos h]

/-- Witness for C9 at a concrete record: a non-canonical field survives, a
defined canonical field survives, and an absent one comes from its alias. -/
theorem c9_normalize_frame_witness :
    normalizeRec c9rec "other" = Value.str "x"
  ∧ normalizeRec c9rec "PRES" = Value.nullV
  ∧ normalizeRec c9rec "TEMP" = Value.num 7 := by
  refine ⟨(c9_normalize_frame c9rec).1 "other" (by decide),
    (c9_normalize_frame c9rec).2.1 "PRES" (by decide) (by decide),
    (c9_normalize_frame c9rec).2.2.1 (by decide)⟩

lemma researcherVisuals_nil (b1 b2 b3 : Bool) : researcherVisuals b1 b2 b3 [] = [] := by
  cases b1 <;> cases b2 <;> cases b3 <;> rfl

lemma fishermanVisuals_nil (b1 b2 : Bool) : fishermanVisuals b1 b2 [] = [] := by
  cases b1 <;> cases b2 <;> rfl

lemma studentVisuals_nil (b1 b2 : Bool) : studentVisuals b1 b2 [] = [] := by
  cases b1 <;> cases b2 <;> rfl

lemma histVisualsList_nil (b1 b2 : Bool) : histVisualsList b1 b2 [] = [] := by
  cases b1 <;> cases b2 <;> rfl

lemma tsBlock_nil (b1 b2 : Bool) : tsBlock b1 b2 [] = [] := by
  cases b1 <;> cases b2 <;> rfl

lemma heatBlock_nil (b1 b2 : Bool) : heatBlock b1 b2 [] = [] := by
  cases b1 <;> cases b2 <;> rfl

lemma boxBlock_nil (b1 b2 : Bool) : boxBlock b1 b2 [] = [] := by
  cases b1 <;> cases b2 <;> rfl

lemma createVisAux_nil (b1 b2 b3 : Bool) (p q : String) :
    createVisAux b1 b2 b3 [] p q = (if p = "policymaker" then policymakerVisuals [] else []) := by
  simp [createVisAux, histOverride, personaVisuals, researcherVisuals_nil, fishermanVisuals_nil,
    studentVisuals_nil, histVisualsList_nil, tsBlock_nil, heatBlock_nil, boxBlock_nil]

/-- C10. After normalization every record defines all four canonical
fields; hence on a non-empty dataset the availability predicates are all
true, and the generator behaves exactly as its variant in which the three
predicates are replaced by `true` (chart emission is decided only by the
inner subset filters and thresholds). -/
theorem c10_canonical_defined (X : List Record) :
    (∀ r ∈ normalizeList X, canonDefined r)
  ∧ (X ≠ [] →
      hasTempB (normalizeList X) = true ∧ hasSalB (normalizeList X) = true ∧
        hasTimeB (normalizeList X) = true)
  ∧ ∀ profession intent,
      createVisualizations (normalizeList X) profession intent =
        createVisAux true true true (normalizeList X)
          (jsToLower (jsOrStr profession "Researcher")) (jsToLower (jsOrStr intent "")) := by
  have hall : ∀ r ∈ normalizeList X, canonDefined r := by
    intro r hr
    obtain ⟨x, hx, rfl⟩ := List.mem_map.mp hr
    exact canonDefined_normalizeRec x
  have hpred : X ≠ [] →
      hasTempB (normalizeList X) = true ∧ hasSalB (normalizeList X) = true ∧
        hasTimeB (normalizeList X) = true := by
    intro hne
    obtain ⟨x, t, rfl⟩ := List.exists_cons_of_ne_nil hne
    have hc := canonDefined_normalizeRec x
    have hmem : normalizeRec x ∈ normalizeList (x :: t) := by
      exact List.mem_map_of_mem _ (List.mem_cons_self x t)
    refine ⟨?_, ?_, ?_⟩
    · exact List.any_eq_true.mpr ⟨normalizeRec x, hmem, by
        simp [vDef, hc.1, hc.2.2.1]⟩
    · exact List.any_eq_true.mpr ⟨normalizeRec x, hmem, by
        simp [vDef, hc.2.1, hc.2.2.1]⟩
    · exact List.any_eq_true.mpr ⟨normalizeRec x, hmem, by
        simp [vDef, hc.2.2.2]⟩
  refine ⟨hall, hpred, ?_⟩
  intro p q
  by_cases hX : X = []
  · subst hX
    have hnil : normalizeList ([] : List Record) = [] := rfl
    show createVisAux (hasTempB (normalizeList [])) (hasSalB (normalizeList []))
      (hasTimeB (normalizeList [])) (normalizeList []) _ _ = _
    rw [hnil, createVisAux_nil, createVisAux_nil]
  · obtain ⟨h1, h2, h3⟩ := hpred hX
    show createVisAux (hasTempB (normalizeList X)) (hasSalB (normalizeList X))
      (hasTimeB (normalizeList X)) (normalizeList X) _ _ = _
    rw [h1, h2, h3]

/-- Witness for C10: on a concrete non-empty dataset the availability
predicates hold and the generator equals its predicate-free variant. -/
theorem c10_canonical_defined_witness :
    hasTempB (normalizeList [c10rec]) = true
  ∧ createVisualizations (normalizeList [c10rec]) "Student" "x" =
      createVisAux true true true (normalizeList [c10rec])
        (jsToLower (jsOrStr "Student" "Researcher")) (jsToLower (jsOrStr "x" "")) :=
  ⟨((c10_canonical_defined [c10rec]).2.1 (List.cons_ne_nil _ _)).1,
    (c10_canonical_defined [c10rec]).2.2 "Student" "x"⟩

lemma pair_getD_sublist {α : Type} (l : List α) (d : α) :
    ∀ i j, i < j → j < l.length → [l.getD i d, l.getD j d] <+ l := by
  induction l with
  | nil => intro i j hij hj; simp at hj
  | cons x t ih =>
      intro i j hij hj
      cases j with
      | zero => omega
      | succ j' =>
          cases i with
          | zero =>
              simp only [List.getD_cons_zero, List.getD_cons_succ]
              refine List.Sublist.cons₂ _ (List.singleton_sublist.mpr ?_)
              have hj' : j' < t.length := by simpa using hj
              rw [List.getD_eq_getElem t d hj']
              exact List.getElem_mem hj'
          | succ i' =>
              simp only [List.getD_cons_succ]
              exact List.Sublist.cons _ (ih i' j' (by omega) (by simpa using hj))

lemma rankEntriesAux_mem (q : String) :
    ∀ (t : List Viz) (i k : ℕ), k < t.length →
      (i + k, scoreViz q (t.getD k junkViz)) ∈ rankEntriesAux q t i := by
  intro t
  induction t with
  | nil => intro i k hk; simp at hk
  | cons v tl ih =>
      intro i k hk
      cases k with
      | zero => simp [rankEntriesAux]
      | succ k' =>
          have hmem := ih (i + 1) k' (by simpa using hk)
          simp only [rankEntriesAux, List.mem_cons, List.getD_cons_succ]
          right
          rw [show i + (k' + 1) = (i + 1) + k' by omega]
          exact hmem

lemma rankEntriesAux_pair (q : String) :
    ∀ (t : List Viz) (i a b : ℕ), a < b → b < t.length →
      [(i + a, scoreViz q (t.getD a junkViz)), (i + b, scoreViz q (t.getD b junkViz))] <+
        rankEntriesAux q t i := by
  intro t
  induction t with
  | nil => intro i a b hab hb; simp at hb
  | cons v tl ih =>
      intro i a b hab hb
      cases a with
      | zero =>
          cases b with
          | zero => omega
          | succ b' =>
              simp only [rankEntriesAux, List.getD_cons_zero, List.getD_cons_succ, Nat.add_zero]
              refine List.Sublist.cons₂ _ (List.singleton_sublist.mpr ?_)
              have hmem := rankEntriesAux_mem q tl (i + 1) b' (by simpa using hb)
              rw [show i + (b' + 1) = (i + 1) + b' by omega]
              exact hmem
      | succ a' =>
          cases b with
          | zero => omega
          | succ b' =>
              simp only [rankEntriesAux, List.getD_cons_succ]
              refine List.Sublist.cons _ ?_
              rw [show i + (a' + 1) = (i + 1) + a' by omega,
                show i + (b' + 1) = (i + 1) + b' by omega]
              exact ih (i + 1) a' b' (by omega) (by simpa using hb)

lemma rankEntriesAux_map (q : String) :
    ∀ (t : List Viz) (i : ℕ) (f : ℕ → Viz), (∀ k, k < t.length → f (i + k) = t.getD k junkViz) →
      (rankEntriesAux q t i).map (fun p => f p.1) = t := by
  intro t
  induction t with
  | nil => intro i f h; rfl
  | cons v tl ih =>
      intro i f h
      simp only [rankEntriesAux, List.map_cons]
      congr 1
      · have h0 := h 0 (by simp)
        simpa using h0
      · refine ih (i + 1) f ?_
        intro k hk
        have hk1 := h (k + 1) (by simpa using Nat.succ_lt_succ hk)
        rw [show i + (k + 1) = (i + 1) + k by omega] at hk1
        simpa using hk1

lemma rankStage_perm (l : List Viz) (q : String) : rankStage l q ~ l := by
  unfold rankStage rankEntries
  have h2 : (rankEntriesAux q l 0).map (fun p => l.getD p.1 junkViz) = l :=
    rankEntriesAux_map q l 0 _ (fun k hk => by rw [Nat.zero_add])
  calc (List.insertionSort scoreGeRel (rankEntriesAux q l 0)).map
        (fun p => l.getD p.1 junkViz)
      ~ (rankEntriesAux q l 0).map (fun p => l.getD p.1 junkViz) :=
        (List.perm_insertionSort _ _).map _
    _ = l := h2

lemma rankStage_stable (l : List Viz) (q : String) {i j : ℕ} (hij : i < j) (hj : j < l.length)
    (hs : scoreViz q (l.getD i junkViz) = scoreViz q (l.getD j junkViz)) :
    [l.getD i junkViz, l.getD j junkViz] <+ rankStage l q := by
  have hpair := rankEntriesAux_pair q l 0 i j hij hj
  rw [Nat.zero_add, Nat.zero_add] at hpair
  have hr : scoreGeRel (i, scoreViz q (l.getD i junkViz))
      (j, scoreViz q (l.getD j junkViz)) := le_of_eq hs.symm
  have hsorted := List.pair_sublist_insertionSort hr hpair
  have hmap := hsorted.map (fun p : ℕ × ℕ => l.getD p.1 junkViz)
  simpa [rankStage, rankEntries] using hmap

/-- C8. Stable ranking: the ranking stage outputs a permutation of the
(possibly histogram-filtered) input — nothing is created, duplicated or
dropped by the sort — and two specs with equal scores keep their relative
order in the output. -/
theorem c8_stable_ranking (l : List Viz) (intent : String) :
    rankViz l intent ~ histStage l intent
  ∧ ∀ i j, i < j → j < (histStage l intent).length →
      scoreViz (jsToLower intent) ((histStage l intent).getD i junkViz) =
        scoreViz (jsToLower intent) ((histStage l intent).getD j junkViz) →
      [(histStage l intent).getD i junkViz, (histStage l intent).getD j junkViz] <+
        rankViz l intent := by
  by_cases hg : 0 < l.length ∧ intent ≠ ""
  · have h1 : rankViz l intent =
        rankStage (histFilterStage l (patHistogram (jsToLower intent).data)) (jsToLower intent) := by
      unfold rankViz
      rw [if_pos hg]
    have h2 : histStage l intent = histFilterStage l (patHistogram (jsToLower intent).data) := by
      unfold histStage
      rw [if_pos hg]
    rw [h1, h2]
    exact ⟨rankStage_perm _ _, fun i j hij hj hs => rankStage_stable _ _ hij hj hs⟩
  · have h1 : rankViz l intent = l := by
      unfold rankViz
      rw [if_neg hg]
    have h2 : histStage l intent = l := by
      unfold histStage
      rw [if_neg hg]
    rw [h1, h2]
    exact ⟨List.Perm.refl l, fun i j hij hj hs => pair_getD_sublist l junkViz i j hij hj⟩

/-- Witness for C8: two equal-score specs keep their input order through
ranking, and the output is a permutation of the narrowed input. -/
theorem c8_stable_ranking_witness :
    rankViz [vizA, vizB] "salinity" ~ histStage [vizA, vizB] "salinity"
  ∧ [vizA, vizB] <+ rankViz [vizA, vizB] "salinity" :=
  ⟨(c8_stable_ranking [vizA, vizB] "salinity").1,
    (c8_stable_ranking [vizA, vizB] "salinity").2 0 1 (by decide) (by decide) (by decide)⟩

lemma patHistogram_of_contains {cs : List Char}
    (h : containsSub ("histogram".data) cs = true) : patHistogram cs = true := by
  unfold patHistogram
  rw [h]
  rfl

lemma intent_ne_of_contains {intent : String}
    (h : containsSub ("histogram".data) (jsToLower intent).data = true) : intent ≠ "" := by
  intro he
  subst he
  exact absurd h (by decide)

/-- C3. Histogram-only narrowing: whenever the (lowercased) intent text
contains the word "histogram", every spec the ranking stage outputs is a
histogram spec provided the generator produced at least one; and when the
generator produced none, no spec is discarded (the output is a permutation
of the candidates). -/
theorem c3_histogram_override (nd : List Record) (profession intent : String)
    (h : containsSub ("histogram".data) (jsToLower intent).data = true) :
    ((∃ v ∈ createVisualizations nd profession intent, isHistVizB v = true) →
      ∀ v ∈ rankViz (createVisualizations nd profession intent) intent, isHistVizB v = true)
  ∧ ((∀ v ∈ createVisualizations nd profession intent, isHistVizB v = false) →
      List.Perm (rankViz (createVisualizations nd profession intent) intent)
        (createVisualizations nd profession intent)) := by
  set cands := createVisualizations nd profession intent with hc
  by_cases hlen : 0 < cands.length
  · have hi := intent_ne_of_contains h
    have hw := patHistogram_of_contains h
    have h1 : rankViz cands intent =
        rankStage (histFilterStage cands (patHistogram (jsToLower intent).data))
          (jsToLower intent) := by
      unfold rankViz
      rw [if_pos ⟨hlen, hi⟩]
    rw [hw] at h1
    constructor
    · rintro ⟨w, hwmem, hwhist⟩ v hv
      have hfpos : 0 < (cands.filter isHistVizB).length :=
        List.length_pos.mpr (List.ne_nil_of_mem (List.mem_filter.mpr ⟨hwmem, hwhist⟩))
      have h2 : histFilterStage cands true = cands.filter isHistVizB := by
        simp [histFilterStage, hfpos]
      rw [h1, h2] at hv
      have hmem := (rankStage_perm _ _).mem_iff.mp hv
      exact (List.mem_filter.mp hmem).2
    · intro hall
      have hfe : cands.filter isHistVizB = [] :=
        List.filter_eq_nil_iff.mpr (fun a ha => by simp [hall a ha])
      have h2 : histFilterStage cands true = cands := by
        simp [histFilterStage, hfe]
      rw [h1, h2]
      exact rankStage_perm _ _
  · have hnil : cands = [] := List.eq_nil_of_length_eq_zero (by omega)
    rw [hnil]
    have hrv : rankViz ([] : List Viz) intent = [] := rfl
    constructor
    · intro hex v hv
      rw [hrv] at hv
      exact absurd hv (List.not_mem_nil v)
    · intro hall
      rw [hrv]

/-- Witness for C3: a fisherman dataset with one near-surface temperature
record and the intent "histogram" yields only histogram specs. -/
theorem c3_histogram_override_witness :
    (rankViz (createVisualizations [c3rec] "Fisherman" "histogram") "histogram").all
      isHistVizB = true := by
  have hh := (c3_histogram_override [c3rec] "Fisherman" "histogram" (by decide)).1 (by decide)
  exact List.all_eq_true.mpr hh

lemma filter_isTsViz_researcher (b1 b2 b3 : Bool) (nd : List Record) :
    (researcherVisuals b1 b2 b3 nd).filter isTsViz = [] := by
  unfold researcherVisuals
  split_ifs <;> rfl

lemma filter_isTsViz_fisherman (b1 b2 : Bool) (nd : List Record) :
    (fishermanVisuals b1 b2 nd).filter isTsViz = [] := by
  unfold fishermanVisuals
  split_ifs <;> rfl

lemma filter_isTsViz_policymaker (nd : List Record) :
    (policymakerVisuals nd).filter isTsViz = [] := rfl

lemma filter_isTsViz_student (b1 b2 : Bool) (nd : List Record) :
    (studentVisuals b1 b2 nd).filter isTsViz = [] := by
  unfold studentVisuals
  split_ifs <;> rfl

lemma filter_isTsViz_histList (b1 b2 : Bool) (nd : List Record) :
    (histVisualsList b1 b2 nd).filter isTsViz = [] := by
  unfold histVisualsList
  split_ifs <;> rfl

lemma filter_isTsViz_heat (b1 b2 : Bool) (nd : List Record) :
    (heatBlock b1 b2 nd).filter isTsViz = [] := by
  unfold heatBlock
  split_ifs <;> rfl

lemma filter_isTsViz_box (b1 b2 : Bool) (nd : List Record) :
    (boxBlock b1 b2 nd).filter isTsViz = [] := by
  unfold boxBlock
  split_ifs <;> rfl

lemma filter_isTsViz_persona (prof : String) (b1 b2 b3 : Bool) (nd : List Record) :
    (personaVisuals prof b1 b2 b3 nd).filter isTsViz = [] := by
  unfold personaVisuals
  simp [List.filter_append, apply_ite (List.filter isTsViz), filter_isTsViz_researcher,
    filter_isTsViz_fisherman, filter_isTsViz_policymaker, filter_isTsViz_student]

lemma filter_isTsViz_histOverride (w b1 b2 : Bool) (nd : List Record) (base : List Viz) :
    (histOverride w b1 b2 nd base).filter isTsViz = base.filter isTsViz := by
  unfold histOverride
  split_ifs <;> simp [List.filter_append, List.filter_reverse, filter_isTsViz_histList]

lemma tsCount_tsBlock (b1 b2 : Bool) (nd : List Record) :
    tsCount (tsBlock b1 b2 nd) =
      if b1 && b2 then (if 20 < (tsData nd).length then 1 else 0) else 0 := by
  unfold tsBlock tsCount
  split_ifs <;> rfl

/-- C6. T-S gating: the generator emits exactly one T-S scatter when the
non-null TEMP-and-PSAL subset of a normalized dataset has strictly more
than 20 records, and none otherwise. -/
theorem c6_ts_gating (nd : List Record) (profession intent : String)
    (h : ∀ r ∈ nd, canonDefined r) :
    tsCount (createVisualizations nd profession intent) =
      if 20 < (tsData nd).length then 1 else 0 := by
  show tsCount (createVisAux (hasTempB nd) (hasSalB nd) (hasTimeB nd) nd _ _) = _
  unfold createVisAux tsCount
  simp only [List.filter_append, List.length_append, filter_isTsViz_histOverride,
    filter_isTsViz_persona, filter_isTsViz_heat, filter_isTsViz_box, List.length_nil]
  have hts := tsCount_tsBlock (hasTempB nd) (hasSalB nd) nd
  unfold tsCount at hts
  rw [hts]
  by_cases h20 : 20 < (tsData nd).length
  · have hpos : tsData nd ≠ [] := by
      intro hnil
      rw [hnil] at h20
      simp at h20
    obtain ⟨r0, hr0⟩ := List.exists_mem_of_ne_nil _ hpos
    have hr0nd : r0 ∈ nd := (List.mem_filter.mp hr0).1
    have hcd := h r0 hr0nd
    have hT : hasTempB nd = true :=
      List.any_eq_true.mpr ⟨r0, hr0nd, by simp [vDef, hcd.1, hcd.2.2.1]⟩
    have hS : hasSalB nd = true :=
      List.any_eq_true.mpr ⟨r0, hr0nd, by simp [vDef, hcd.2.1, hcd.2.2.1]⟩
    simp [hT, hS, h20]
  · simp [h20]

/-- Witness for C6: 21 valid records produce exactly one T-S spec. -/
theorem c6_ts_gating_witness :
    tsCount (createVisualizations (List.replicate 21 c6rec) "Researcher" "") = 1 := by
  have hh := c6_ts_gating (List.replicate 21 c6rec) "Researcher" "" (by decide)
  rw [hh]
  decide

lemma charListLe_total : ∀ (a b : List Char), charListLe a b = true ∨ charListLe b a = true := by
  intro a
  induction a with
  | nil => intro b; left; rfl
  | cons x as ih =>
      intro b
      cases b with
      | nil => right; rfl
      | cons y bs =>
          by_cases h1 : x.toNat < y.toNat
          · left
            simp [charListLe, h1]
          · by_cases h2 : y.toNat < x.toNat
            · right
              simp [charListLe, h2]
            · rcases ih bs with h | h
              · left
                simp [charListLe, h1, h2, h]
              · right
                simp [charListLe, h1, h2, h]

lemma charListLe_trans :
    ∀ (a b c : List Char), charListLe a b = true → charListLe b c = true →
      charListLe a c = true := by
  intro a
  induction a with
  | nil => intro b c h1 h2; rfl
  | cons x as ih =>
      intro b c h1 h2
      cases b with
      | nil => simp [charListLe] at h1
      | cons y bs =>
          cases c with
          | nil => simp [charListLe] at h2
          | cons z cs =>
              simp only [charListLe] at h1 h2 ⊢
              split_ifs at h1 h2 ⊢ <;>
                first
                  | rfl
                  | (exact ih bs cs h1 h2)
                  | omega

lemma sortStrs_sorted (l : List String) :
    (sortStrs l).Pairwise (fun a b => strLeB a b = true) := by
  haveI : IsTotal String (fun a b => strLeB a b = true) :=
    ⟨fun a b => charListLe_total a.data b.data⟩
  haveI : IsTrans String (fun a b => strLeB a b = true) :=
    ⟨fun a b c => charListLe_trans a.data b.data c.data⟩
  exact List.sorted_insertionSort _ l

lemma filter_isBoxViz_researcher (b1 b2 b3 : Bool) (nd : List Record) :
    (researcherVisuals b1 b2 b3 nd).filter isBoxViz = [] := by
  unfold researcherVisuals
  split_ifs <;> rfl

lemma filter_isBoxViz_fisherman (b1 b2 : Bool) (nd : List Record) :
    (fishermanVisuals b1 b2 nd).filter isBoxViz = [] := by
  unfold fishermanVisuals
  split_ifs <;> rfl

lemma filter_isBoxViz_policymaker (nd : List Record) :
    (policymakerVisuals nd).filter isBoxViz = [] := rfl

lemma filter_isBoxViz_student (b1 b2 : Bool) (nd : List Record) :
    (studentVisuals b1 b2 nd).filter isBoxViz = [] := by
  unfold studentVisuals
  split_ifs <;> rfl

lemma filter_isBoxViz_histList (b1 b2 : Bool) (nd : List Record) :
    (histVisualsList b1 b2 nd).filter isBoxViz = [] := by
  unfold histVisualsList
  split_ifs <;> rfl

lemma filter_isBoxViz_ts (b1 b2 : Bool) (nd : List Record) :
    (tsBlock b1 b2 nd).filter isBoxViz = [] := by
  unfold tsBlock
  split_ifs <;> rfl

lemma filter_isBoxViz_heat (b1 b2 : Bool) (nd : List Record) :
    (heatBlock b1 b2 nd).filter isBoxViz = [] := by
  unfold heatBlock
  split_ifs <;> rfl

lemma filter_isBoxViz_persona (prof : String) (b1 b2 b3 : Bool) (nd : List Record) :
    (personaVisuals prof b1 b2 b3 nd).filter isBoxViz = [] := by
  unfold personaVisuals
  simp [List.filter_append, apply_ite (List.filter isBoxViz), filter_isBoxViz_researcher,
    filter_isBoxViz_fisherman, filter_isBoxViz_policymaker, filter_isBoxViz_student]

lemma filter_isBoxViz_histOverride (w b1 b2 : Bool) (nd : List Record) (base : List Viz) :
    (histOverride w b1 b2 nd base).filter isBoxViz = base.filter isBoxViz := by
  unfold histOverride
  split_ifs <;> simp [List.filter_append, List.filter_reverse, filter_isBoxViz_histList]

lemma filter_isBoxViz_box (b1 b2 : Bool) (nd : List Record) :
    (boxBlock b1 b2 nd).filter isBoxViz = boxBlock b1 b2 nd := by
  unfold boxBlock
  split_ifs <;> rfl

/-- Counterexample to C7 as stated: the first record has non-null TEMP and
non-null TIME parsing to the valid timestamp 0 (month key "1970-01", a
second distinct month beside "2023-01"), yet the code's truthiness guard
excludes it from the grouping, so only one group exists and no box-plot
spec is emitted. -/
theorem c7_month_bucketing_counterexample :
    vNeNull (c7e1 "TIME") = true
  ∧ jsDateParse (c7e1 "TIME") = some 0
  ∧ vNeNull (c7e1 "TEMP") = true
  ∧ msMonthKey 0 = "1970-01"
  ∧ monthPairs [c7e1, c7e2] = [("2023-01", Value.num 6)]
  ∧ boxSpecs (createVisualizations [c7e1, c7e2] "Researcher" "") = [] := by
  decide

/-- C7 (amended: a record enters the grouping when its TIME is truthy —
non-null, non-zero, non-empty — and parses; merely non-null is not
enough). The two sample dates share the group key "2023-01"; the
generator emits the box-plot spec exactly when at least 2 distinct month
keys exist; its series are one box per month, months sorted ascending. -/
theorem c7_month_bucketing_amended (nd : List Record) (profession intent : String)
    (h : ∀ r ∈ nd, canonDefined r) :
    ((jsDateParse (Value.str "2023-01-05")).map msMonthKey = some "2023-01"
      ∧ (jsDateParse (Value.str "2023-01-20")).map msMonthKey = some "2023-01")
  ∧ boxSpecs (createVisualizations nd profession intent) =
      (if 2 ≤ (monthLabels nd).length then [boxVisual nd] else [])
  ∧ (monthLabels nd).Pairwise (fun a b => strLeB a b = true)
  ∧ (boxVisual nd).dat =
      (monthLabels nd).map (fun lab => ⟨some "box", some lab, [], monthGroup nd lab, []⟩) := by
  refine ⟨⟨by decide, by decide⟩, ?_, sortStrs_sorted _, rfl⟩
  show boxSpecs (createVisAux (hasTempB nd) (hasSalB nd) (hasTimeB nd) nd _ _) = _
  unfold createVisAux boxSpecs
  simp only [List.filter_append, filter_isBoxViz_histOverride, filter_isBoxViz_persona,
    filter_isBoxViz_ts, filter_isBoxViz_heat, filter_isBoxViz_box, List.nil_append]
  by_cases h2 : 2 ≤ (monthLabels nd).length
  · have hlabne : monthLabels nd ≠ [] := by
      intro hn
      rw [hn] at h2
      simp at h2
    have hkeysne : (monthPairs nd).map Prod.fst ≠ [] := by
      intro hk
      apply hlabne
      unfold monthLabels
      rw [hk]
      rfl
    have hpairsne : monthPairs nd ≠ [] := by
      intro hp
      apply hkeysne
      rw [hp]
      rfl
    obtain ⟨p0, hp0⟩ := List.exists_mem_of_ne_nil _ hpairsne
    obtain ⟨d0, hd0, hf⟩ := List.mem_filterMap.mp hp0
    have hcd := h d0 hd0
    have hT : hasTempB nd = true :=
      List.any_eq_true.mpr ⟨d0, hd0, by simp [vDef, hcd.1, hcd.2.2.1]⟩
    have hTi : hasTimeB nd = true :=
      List.any_eq_true.mpr ⟨d0, hd0, by simp [vDef, hcd.2.2.2]⟩
    simp [boxBlock, hT, hTi, h2]
  · simp [boxBlock, h2]

/-- Witness for the amended C7: two records in distinct months produce
exactly the box-plot spec. -/
theorem c7_month_bucketing_amended_witness :
    boxSpecs (createVisualizations [c7w1, c7w2] "Researcher" "") = [boxVisual [c7w1, c7w2]] := by
  have hh := (c7_month_bucketing_amended [c7w1, c7w2] "Researcher" "" (by decide)).2.1
  rw [hh]
  decide

/-- Counterexample to C2 as stated: with the persona "Captain" the
generator emits no persona chart at all (empty output here), while the
persona "Researcher" emits its temperature-pressure scatter; the outputs
differ, so an unrecognized persona is not treated as Researcher. -/
theorem c2_unrecognized_persona_counterexample :
    createVisualizations [c2rec] "Captain" "" ≠ createVisualizations [c2rec] "Researcher" "" := by
  decide

/-- C2 (amended: only a falsy — empty — persona string falls back to
Researcher; an unrecognized non-empty persona matches no persona rule
block and yields exactly the histogram-override and advanced charts). -/
theorem c2_persona_fallback_amended (nd : List Record) (intent : String) :
    createVisualizations nd "" intent = createVisualizations nd "Researcher" intent
  ∧ ∀ p : String, p ≠ "" →
      jsToLower p ∉ (["researcher", "fisherman", "policymaker", "student"] : List String) →
      createVisualizations nd p intent =
        histOverride (patHistogram (jsToLower (jsOrStr intent "")).data)
            (hasTempB nd) (hasSalB nd) nd []
          ++ (tsBlock (hasTempB nd) (hasSalB nd) nd
            ++ (heatBlock (hasTempB nd) (hasTimeB nd) nd
              ++ boxBlock (hasTempB nd) (hasTimeB nd) nd)) := by
  constructor
  · rfl
  · intro p hp hmem
    simp only [List.mem_cons, List.not_mem_nil, or_false, not_or] at hmem
    obtain ⟨m1, m2, m3, m4⟩ := hmem
    show createVisAux (hasTempB nd) (hasSalB nd) (hasTimeB nd) nd
      (jsToLower (jsOrStr p "Researcher")) (jsToLower (jsOrStr intent "")) = _
    rw [show jsOrStr p "Researcher" = p from if_neg hp]
    unfold createVisAux
    have hper : personaVisuals (jsToLower p) (hasTempB nd) (hasSalB nd) (hasTimeB nd) nd = [] := by
      unfold personaVisuals
      rw [if_neg m1, if_neg m2, if_neg m3, if_neg m4]
      rfl
    rw [hper]
    simp [List.append_assoc]

/-- Witness for the amended C2 at concrete inputs: "Captain" yields only
the non-persona charts. -/
theorem c2_persona_fallback_amended_witness :
    createVisualizations [c2rec] "Captain" "" =
      histOverride (patHistogram (jsToLower (jsOrStr "" "")).data)
          (hasTempB [c2rec]) (hasSalB [c2rec]) [c2rec] []
        ++ (tsBlock (hasTempB [c2rec]) (hasSalB [c2rec]) [c2rec]
          ++ (heatBlock (hasTempB [c2rec]) (hasTimeB [c2rec]) [c2rec]
            ++ boxBlock (hasTempB [c2rec]) (hasTimeB [c2rec]) [c2rec])) :=
  (c2_persona_fallback_amended [c2rec] "").2 "Captain" (by decide) (by decide)

/-- Counterexample to C1 as stated: for the intent "profile" and a spec
whose title does not mention pressure, the source scorer still adds the
+3 term (its first condition is a disjunction, not a conjunction), so the
computed score differs from the claimed both-conditions score. -/
theorem c1_pressure_term_counterexample :
    containsStr (jsToLower c1viz.layout.title) "pressure" = false
  ∧ scoreViz (jsToLower "profile") c1viz = 3
  ∧ specScoreC1 "profile" c1viz = 0 := by
  decide

/-- C1 (amended): the score decomposes into independent guarded terms; the
pressure term is added when the title mentions pressure OR the text
matches `(temp.*pres|profile)` (a sub-pattern of the `wantsProfile` flag);
the salinity, temperature and time terms require their title condition AND
their intent flag pattern; the surface term requires its title condition
AND the sub-pattern `(surface|0-10\s*dbar)` of `wantsSurface` (it does not
fire on "shallow"). -/
theorem c1_score_characterization (q : String) (v : Viz) :
    scoreViz q v =
      (if containsStr (jsToLower v.layout.title) "pressure" || patProfileScore q.data
        then 3 else 0) +
      (if containsStr (jsToLower v.layout.title) "salinity" && patSalinity q.data
        then 2 else 0) +
      (if containsStr (jsToLower v.layout.title) "temperature" && patTemperature q.data
        then 2 else 0) +
      (if containsStr (jsToLower v.layout.title) "time" && patTime q.data
        then 3 else 0) +
      (if (containsStr (jsToLower v.layout.title) "surface" ||
            containsStr (jsToLower v.layout.title) "distribution") && patSurfaceScore q.data
        then 2 else 0) := by
  simp only [scoreViz]
  split_ifs <;> rfl

/-- Counterexample to C5 as stated: the record's TIME is non-null and
parses to the valid timestamp 0, so the claimed time span is
`{min: 0, max: 0}`; but `.filter(Boolean)` drops the numeric value 0, so
the aggregator returns a null time span (the parsed record is discarded). -/
theorem c5_timespan_counterexample :
    vNeNull (normalizeRec c5rec "TIME") = true
  ∧ jsDateParse (normalizeRec c5rec "TIME") = some 0
  ∧ computeKpis [c5rec] = some ⟨1, Value.nullV, Value.nullV, none, none⟩ := by
  decide

lemma filter_truthy_map_eq {α : Type} (f : α → Value) (g : α → Option ℚ)
    (h : ∀ a, (∃ q, f a = Value.num q ∧ truthy (f a) = true ∧ g a = some q) ∨
      (truthy (f a) = false ∧ g a = none)) :
    ∀ l : List α, (l.map f).filter truthy = (l.filterMap g).map Value.num := by
  intro l
  induction l with
  | nil => rfl
  | cons a t ih =>
      rw [List.map_cons, List.filter_cons, List.filterMap_cons]
      rcases h a with ⟨q, hf, ht, hg⟩ | ⟨ht, hg⟩
      · rw [ht, hg, if_pos rfl, List.map_cons, hf, ih]
      · rw [ht, hg, if_neg (by simp), ih]

lemma truthy_num (q : ℚ) : truthy (Value.num q) = decide (q ≠ 0) := rfl

lemma kpiTimesV_eq (nd : List Record) : kpiTimesV nd = (goodTimes nd).map Value.num := by
  refine filter_truthy_map_eq _ _ ?_ nd
  intro d
  by_cases htr : truthy (d "TIME") = true
  · rcases hp : jsDateParse (d "TIME") with _ | tt
    · refine Or.inr ⟨?_, ?_⟩
      · rw [if_pos htr]
        unfold jsGetTime
        rw [hp]
        rfl
      · rw [if_pos htr]
    · by_cases hz : ((tt : ℤ) : ℚ) = 0
      · refine Or.inr ⟨?_, ?_⟩
        · rw [if_pos htr]
          unfold jsGetTime
          rw [hp, truthy_num]
          simp [hz]
        · rw [if_pos htr]
          simp [hz]
      · refine Or.inl ⟨((tt : ℤ) : ℚ), ?_, ?_, ?_⟩
        · rw [if_pos htr]
          unfold jsGetTime
          rw [hp]
        · rw [if_pos htr]
          unfold jsGetTime
          rw [hp, truthy_num]
          simp [hz]
        · rw [if_pos htr]
          simp [hz]
  · refine Or.inr ⟨?_, ?_⟩
    · rw [if_neg htr]
      rfl
    · rw [if_neg htr]

/-- C5 (amended): the kept time values are exactly those of records with
truthy TIME whose parse succeeds and whose timestamp is non-zero; the time
span is the fold of `min` and `max` over them when at least one remains,
and null otherwise. (As stated, C5 fails: a non-null TIME that is falsy,
or one parsing to timestamp 0, is also discarded.) -/
theorem c5_timespan_amended (nd : List Record) :
    kpiTimesV nd = (goodTimes nd).map Value.num
  ∧ kpiMinTime nd = (match goodTimes nd with
      | [] => none
      | x :: t => some (t.foldl min x))
  ∧ kpiMaxTime nd = (match goodTimes nd with
      | [] => none
      | x :: t => some (t.foldl max x)) := by
  have h1 := kpiTimesV_eq nd
  refine ⟨h1, ?_, ?_⟩
  · unfold kpiMinTime
    rw [h1]
    cases goodTimes nd with
    | nil => rfl
    | cons x t => simp [toQ, List.map_map, Function.comp_def]
  · unfold kpiMaxTime
    rw [h1]
    cases goodTimes nd with
    | nil => rfl
    | cons x t => simp [toQ, List.map_map, Function.comp_def]
